import Mathlib

/-!
# Verification of the `bfi` brainfuck interpreter (src/src/bin/bfi.rs)

Shallow embedding of the interpreter's state and operations.

Modelling conventions:

* `u32` cell values and the `usize` tape pointer are `Nat`s reduced modulo
  `2^32` / `2^64` exactly where the Rust code uses wrapping arithmetic
  (`wrapping_add` / `wrapping_sub`).
* The instruction source (`read_iter`) and the input source (`input_iter`)
  are modelled as lists of already-decoded characters; the remaining part of
  each source is stored in the state.  UTF-8 decode failures
  (`CharsError::NotUtf8`) are not exercised by any claim and are not
  modelled: every source is a well-formed character sequence, and iterator
  exhaustion (`None` from `next()`) corresponds to the empty list.
* `std::io::Error` values produced by the interpreter are collapsed to the
  `IOErr` type below; the code's
  `Error::new(ErrorKind::Other, "no instructions in buffer")` (source
  exhaustion) is `IOErr.exhausted` — the spec calls it `ExhaustedError`.
* Rust methods mutate `&mut self` and return `io::Result<()>`; they are
  embedded as functions `State → Option IOErr × State`, so the state
  reached by a failing step (mutations performed before the early return)
  is preserved, exactly as in the Rust original.
* `eprintln!` diagnostics are modelled as an append-only `stderrLog`;
  the debug `println!` at the top of `repl` is modelled as an append-only
  `stdoutLog` of `DebugLine` records.  The `.` output sink (`writer`,
  which `main` binds to stdout, like the debug lines) is the separate
  `output` list; sink write failures are injected through `sinkResults`, a
  finite list of outcomes consumed one per attempted sink write (an empty
  list means every write succeeds).
* The three `while` loops of the source (`dereference_mut`'s growth loop,
  `jump_if_zero`'s materialization loop, `repl`'s fetch loop) are embedded
  with an explicit iteration bound ("fuel") that is provably sufficient:
  the growth loop strictly increases the storage length and the two pull
  loops strictly shrink the unread source on every iteration, so
  `p + 1 - data.length` resp. `readSrc.length + 1` iterations always
  reach the exit condition before the fuel runs out (the `_stable`
  theorems below show the result is independent of any sufficient fuel).
-/

namespace Bfi

/-- Modulus of the 32-bit unsigned cell type (`u32`). -/
def U32_MOD : Nat := 2 ^ 32

/-- Modulus of the machine-word pointer type (`usize`, 64-bit). -/
def USIZE_MOD : Nat := 2 ^ 64

/-- Diagnostics written to standard error by `eprintln!`. -/
inductive Diag where
  /-- "cannot print invalid UTF-8 codepoint" (from `write`). -/
  | invalidCodepoint : Diag
  /-- "error while writing: ..." (from `write`, output sink failure). -/
  | writeFailed : Diag
  /-- "no matching '[' found!" (from `jump_if_nonzero`). -/
  | unmatchedClose : Diag
  deriving Repr, DecidableEq

/-- Fatal `std::io::Error` values returned by fallible interpreter methods. -/
inductive IOErr where
  /-- `ErrorKind::InvalidData`, "buffer did not contain valid UTF-8"
  (the spec's `DecodeError`; not produced in this model, see the header). -/
  | decodeError : IOErr
  /-- `ErrorKind::Other`, "no instructions in buffer"
  (the spec's `ExhaustedError`). -/
  | exhausted : IOErr
  deriving Repr, DecidableEq

/-- One debug line printed by the `println!` at the top of `repl`:
`p = {pointer}, ip = {instruction_pointer}, {instructions:?}, {data:?}`. -/
structure DebugLine where
  pointer : Nat
  instruction_pointer : Nat
  instructions : List Char
  data : List Nat
  deriving Repr, DecidableEq

/-- The interpreter state `InterpreterState<R, R2, W>`.  `readSrc` is the
not-yet-consumed part of the instruction source `read_iter`, `inputSrc` the
not-yet-consumed part of the input source `input_iter`.  `output`,
`sinkResults`, `stdoutLog` and `stderrLog` model the I/O sinks as described
in the file header. -/
structure State where
  data : List Nat
  pointer : Nat
  readSrc : List Char
  output : List Nat
  sinkResults : List Bool
  inputSrc : List Char
  instructions : List Char
  instruction_pointer : Nat
  stdoutLog : List DebugLine
  stderrLog : List Diag
  deriving Repr, DecidableEq

/-- `is_usable`: membership in the 8-symbol instruction alphabet. -/
def is_usable (c : Char) : Bool :=
  c == '>' || c == '<' || c == '+' || c == '-' || c == '.'
    || c == ',' || c == '[' || c == ']'

/-- `InterpreterState::new`: 65536 zero cells, both pointers zero, empty
instruction list; the given program and input become the sources. -/
def State.new (program input : List Char) : State where
  data := List.replicate 65536 0
  pointer := 0
  readSrc := program
  output := []
  sinkResults := []
  inputSrc := input
  instructions := []
  instruction_pointer := 0
  stdoutLog := []
  stderrLog := []

/-- `increment`: `pointer.wrapping_add(1)`. -/
def increment (s : State) : State :=
  { s with pointer := (s.pointer + 1) % USIZE_MOD }

/-- `decrement`: `pointer.wrapping_sub(1)`. -/
def decrement (s : State) : State :=
  { s with pointer := (s.pointer + (USIZE_MOD - 1)) % USIZE_MOD }

/-- `dereference`: the cell at the pointer, or 0 if the pointer is at or
beyond the current storage length.  (Takes `&self`: no mutation.) -/
def dereference (s : State) : Nat :=
  if s.pointer ≥ s.data.length then 0
  else s.data.getD s.pointer 0

/-- `grow`: `data.resize(max(1, data.len()) * 2, 0)` — doubling (from a
minimum of 1), padding with zero cells. -/
def grow (data : List Nat) : List Nat :=
  data ++ List.replicate (max 1 data.length * 2 - data.length) 0

/-- The `while self.pointer >= self.data.len() { self.grow() }` loop of
`dereference_mut`, with an explicit iteration bound (see the file header). -/
def grow_until_fuel : Nat → List Nat → Nat → List Nat
  | 0, data, _ => data
  | fuel + 1, data, p =>
    if p < data.length then data
    else grow_until_fuel fuel (grow data) p

/-- The `dereference_mut` growth loop: grow (by doubling) until the pointer
is strictly inside the storage. -/
def grow_until (data : List Nat) (p : Nat) : List Nat :=
  grow_until_fuel (p + 1 - data.length) data p

/-- `*self.dereference_mut() = v`: grow until the pointer is addressable,
then overwrite the target cell. -/
def write_cell (s : State) (v : Nat) : State :=
  { s with data := (grow_until s.data s.pointer).set s.pointer v }

/-- `char::from_u32`: valid unicode scalar values are those below 0x110000
and outside the surrogate range 0xD800–0xDFFF. -/
def from_u32 (n : Nat) : Option Nat :=
  if n < 0x110000 ∧ ¬(0xD800 ≤ n ∧ n ≤ 0xDFFF) then some n else none

/-- `write` (the `.` operation): interpret the cell as a unicode scalar
value via `char::from_u32`; on `None`, report a diagnostic and return
without output; on `Some`, attempt the sink write, reporting a diagnostic
on sink failure.  Never returns an error. -/
def writeOp (s : State) : State :=
  match from_u32 (dereference s) with
  | none => { s with stderrLog := s.stderrLog ++ [Diag.invalidCodepoint] }
  | some c =>
    match s.sinkResults with
    | true :: rest =>
        { s with output := s.output ++ [c], sinkResults := rest }
    | false :: rest =>
        { s with sinkResults := rest, stderrLog := s.stderrLog ++ [Diag.writeFailed] }
    | [] => { s with output := s.output ++ [c] }

/-- `read` (the `,` operation): pull one character from the input source;
on exhaustion return the "no instructions in buffer" error, otherwise store
its code point into the current cell via `dereference_mut`. -/
def readOp (s : State) : Option IOErr × State :=
  match s.inputSrc with
  | [] => (some IOErr.exhausted, s)
  | c :: rest => (none, write_cell { s with inputSrc := rest } c.toNat)

/-- Skipping loop of `read_file`: the next usable character of the source
together with the part of the source after it, or `none` when the source is
exhausted before a usable character appears.  (In the Rust source this skip
is written as a self-recursive call, `return self.read_file()`.) -/
def read_file_aux : List Char → Option (Char × List Char)
  | [] => none
  | c :: rest => if is_usable c then some (c, rest) else read_file_aux rest

/-- `read_file`: pull characters from the instruction source, discarding
non-instruction characters, until a usable symbol is appended to
`instructions` or the source is exhausted (the `exhausted` error). -/
def read_file (s : State) : Option IOErr × State :=
  match read_file_aux s.readSrc with
  | none => (some IOErr.exhausted, { s with readSrc := [] })
  | some (c, rest) =>
      (none, { s with readSrc := rest, instructions := s.instructions ++ [c] })

/-- The `None` arm of `jump_if_zero`:
`while instructions[len-1] != ']'`, pull via `read_file`, propagating any
pull error; the instruction pointer is not touched.  Explicit iteration
bound, see the file header.  (The Rust indexing `instructions[len-1]`
panics on an empty list; the model's `getLast?` check keeps pulling then —
no claim exercises that corner, since `jump_if_zero` is only dispatched
with the `[` itself already materialized.) -/
def pull_until_close_fuel : Nat → State → Option IOErr × State
  | 0, s => (some IOErr.exhausted, s)
  | fuel + 1, s =>
    if s.instructions.getLast? = some ']' then (none, s)
    else
      match read_file s with
      | (some e, s') => (some e, s')
      | (none, s') => pull_until_close_fuel fuel s'

/-- The materialization loop of `jump_if_zero`'s `None` arm. -/
def pull_until_close (s : State) : Option IOErr × State :=
  pull_until_close_fuel (s.readSrc.length + 1) s

/-- `jump_if_zero` (the `[` operation): if the cell is nonzero, do nothing.
Otherwise search the materialized suffix after the `[` for the first `]`;
if found at relative offset `i`, add `i` to the instruction pointer; if not
found, pull from the source until the last materialized instruction is `]`
(without touching the instruction pointer), propagating pull errors. -/
def jump_if_zero (s : State) : Option IOErr × State :=
  if dereference s ≠ 0 then (none, s)
  else
    match (s.instructions.drop (s.instruction_pointer + 1)).findIdx? (· == ']') with
    | some i => (none, { s with instruction_pointer := s.instruction_pointer + i })
    | none => pull_until_close s

/-- `jump_if_nonzero` (the `]` operation): if the cell is zero, do nothing.
Otherwise scan the materialized prefix before the instruction pointer
backwards for the nearest `[`; if it is `i` positions back in the reversed
prefix, subtract `i` from the instruction pointer; if there is none, report
the "no matching '[' found!" diagnostic.  Never returns an error. -/
def jump_if_nonzero (s : State) : State :=
  if dereference s = 0 then s
  else
    match ((s.instructions.take s.instruction_pointer).reverse).findIdx? (· == '[') with
    | some i => { s with instruction_pointer := s.instruction_pointer - i }
    | none => { s with stderrLog := s.stderrLog ++ [Diag.unmatchedClose] }

/-- The fetch loop at the top of `repl`:
`while instruction_pointer >= instructions.len()`, pull via `read_file`,
propagating any pull error.  Explicit iteration bound, see the file
header. -/
def fetch_fuel : Nat → State → Option IOErr × State
  | 0, s => (some IOErr.exhausted, s)
  | fuel + 1, s =>
    if s.instruction_pointer < s.instructions.length then (none, s)
    else
      match read_file s with
      | (some e, s') => (some e, s')
      | (none, s') => fetch_fuel fuel s'

/-- The fetch loop at the top of `repl`. -/
def fetch (s : State) : Option IOErr × State :=
  fetch_fuel (s.readSrc.length + 1) s

/-- The debug `println!` at the top of `repl`, run after the fetch loop and
before dispatch: appends the current pointer, instruction pointer, full
instruction list and full tape contents to standard output. -/
def logLine (s : State) : State :=
  { s with stdoutLog :=
      s.stdoutLog ++ [⟨s.pointer, s.instruction_pointer, s.instructions, s.data⟩] }

/-- Dispatch of one fetched instruction symbol (the `match instruction`
in `repl`).  Fallible arms (`,` and `[`) propagate their error. -/
def dispatch (s : State) (instruction : Char) : Option IOErr × State :=
  if instruction = '>' then (none, increment s)
  else if instruction = '<' then (none, decrement s)
  else if instruction = '+' then
    (none, write_cell s ((dereference s + 1) % U32_MOD))
  else if instruction = '-' then
    (none, write_cell s ((dereference s + (U32_MOD - 1)) % U32_MOD))
  else if instruction = '.' then (none, writeOp s)
  else if instruction = ',' then readOp s
  else if instruction = '[' then jump_if_zero s
  else if instruction = ']' then (none, jump_if_nonzero s)
  else (none, s)

/-- `repl`: one interpreter step — fetch (materializing as needed), print
the debug line, dispatch the instruction at the instruction pointer, then
advance the instruction pointer by 1.  Errors from the fetch or from the
`,`/`[` arms return early, before the advance. -/
def repl (s : State) : Option IOErr × State :=
  match fetch s with
  | (some e, s') => (some e, s')
  | (none, s₁) =>
    let s₂ := logLine s₁
    match dispatch s₂ (s₂.instructions.getD s₂.instruction_pointer ' ') with
    | (some e, s') => (some e, s')
    | (none, s₃) =>
        (none, { s₃ with instruction_pointer := s₃.instruction_pointer + 1 })

/-- The driver loop of `main` (`while interpreter.repl().is_ok() {}`), cut
off after at most `n` steps: the state after `n` calls to `repl`, stopping
early (at the errored state) when a step returns an error. -/
def run : Nat → State → State
  | 0, s => s
  | n + 1, s =>
    match repl s with
    | (some _, s') => s'
    | (none, s') => run n s'

/-- Repeated `read_file` pulls until the instruction source errors
(exhaustion), materializing the whole remaining source; explicit iteration
bound, see the file header. -/
def pull_all_fuel : Nat → State → State
  | 0, s => s
  | fuel + 1, s =>
    match read_file s with
    | (some _, s') => s'
    | (none, s') => pull_all_fuel fuel s'

/-- Materialize the entire remaining instruction source by repeated pulls. -/
def pull_all (s : State) : State :=
  pull_all_fuel (s.readSrc.length + 1) s

/-! ## Basic lemmas about the growth loop and the pull loops -/

theorem grow_length (data : List Nat) :
    (grow data).length = max 1 data.length * 2 := by
  have h : data.length ≤ max 1 data.length * 2 := by
    rcases Nat.le_total data.length 1 with h | h
    · omega
    · have := Nat.max_eq_right h
      omega
  simp [grow, h]

theorem grow_length_lt (data : List Nat) :
    data.length < (grow data).length := by
  rw [grow_length]
  rcases Nat.le_total data.length 1 with h | h
  · have := Nat.max_eq_left h
    omega
  · have := Nat.max_eq_right h
    omega

theorem grow_until_fuel_stable (n m : Nat) (data : List Nat) (p : Nat)
    (hn : p + 1 - data.length ≤ n) (hm : p + 1 - data.length ≤ m) :
    grow_until_fuel n data p = grow_until_fuel m data p := by
  induction n generalizing m data with
  | zero =>
    have hp : p < data.length := by omega
    cases m with
    | zero => rfl
    | succ m => simp [grow_until_fuel, hp]
  | succ n ih =>
    cases m with
    | zero =>
      have hp : p < data.length := by omega
      simp [grow_until_fuel, hp]
    | succ m =>
      rw [grow_until_fuel, grow_until_fuel]
      by_cases hp : p < data.length
      · rw [if_pos hp, if_pos hp]
      · rw [if_neg hp, if_neg hp]
        have hlt := grow_length_lt data
        exact ih m (grow data) (by omega) (by omega)

theorem grow_until_fuel_lt (n : Nat) (data : List Nat) (p : Nat)
    (hn : p + 1 - data.length ≤ n) : p < (grow_until_fuel n data p).length := by
  induction n generalizing data with
  | zero => rw [grow_until_fuel]; omega
  | succ n ih =>
    rw [grow_until_fuel]
    by_cases hp : p < data.length
    · rwa [if_pos hp]
    · rw [if_neg hp]
      have hlt := grow_length_lt data
      exact ih (grow data) (by omega)

theorem grow_until_lt (data : List Nat) (p : Nat) :
    p < (grow_until data p).length :=
  grow_until_fuel_lt _ data p (Nat.le_refl _)

theorem read_file_aux_shrinks {l : List Char} {c : Char} {rest : List Char}
    (h : read_file_aux l = some (c, rest)) : rest.length < l.length := by
  induction l with
  | nil => simp [read_file_aux] at h
  | cons a l ih =>
    rw [read_file_aux] at h
    by_cases ha : is_usable a
    · rw [if_pos ha] at h
      cases h
      simp
    · rw [if_neg ha] at h
      have := ih h
      simp
      omega

theorem read_file_cases (s : State) :
    (∃ s', read_file s = (none, s') ∧ s'.readSrc.length < s.readSrc.length) ∨
      ∃ e s', read_file s = (some e, s') := by
  unfold read_file
  rcases haux : read_file_aux s.readSrc with _ | ⟨c, rest⟩
  · right; exact ⟨_, _, rfl⟩
  · left
    refine ⟨_, rfl, ?_⟩
    exact read_file_aux_shrinks haux

theorem pull_until_close_fuel_stable (n m : Nat) (s : State)
    (hn : s.readSrc.length < n) (hm : s.readSrc.length < m) :
    pull_until_close_fuel n s = pull_until_close_fuel m s := by
  induction n generalizing m s with
  | zero => omega
  | succ n ih =>
    cases m with
    | zero => omega
    | succ m =>
      rw [pull_until_close_fuel, pull_until_close_fuel]
      by_cases hc : s.instructions.getLast? = some ']'
      · rw [if_pos hc, if_pos hc]
      · rw [if_neg hc, if_neg hc]
        rcases read_file_cases s with ⟨s', hs', hlt⟩ | ⟨e, s', hs'⟩
        · rw [hs']
          exact ih m s' (by omega) (by omega)
        · rw [hs']

theorem fetch_fuel_stable (n m : Nat) (s : State)
    (hn : s.readSrc.length < n) (hm : s.readSrc.length < m) :
    fetch_fuel n s = fetch_fuel m s := by
  induction n generalizing m s with
  | zero => omega
  | succ n ih =>
    cases m with
    | zero => omega
    | succ m =>
      rw [fetch_fuel, fetch_fuel]
      by_cases hc : s.instruction_pointer < s.instructions.length
      · rw [if_pos hc, if_pos hc]
      · rw [if_neg hc, if_neg hc]
        rcases read_file_cases s with ⟨s', hs', hlt⟩ | ⟨e, s', hs'⟩
        · rw [hs']
          exact ih m s' (by omega) (by omega)
        · rw [hs']

theorem pull_all_fuel_stable (n m : Nat) (s : State)
    (hn : s.readSrc.length < n) (hm : s.readSrc.length < m) :
    pull_all_fuel n s = pull_all_fuel m s := by
  induction n generalizing m s with
  | zero => omega
  | succ n ih =>
    cases m with
    | zero => omega
    | succ m =>
      rw [pull_all_fuel, pull_all_fuel]
      rcases read_file_cases s with ⟨s', hs', hlt⟩ | ⟨e, s', hs'⟩
      · rw [hs']
        exact ih m s' (by omega) (by omega)
      · rw [hs']

/-! ## Semantic lemmas -/

/-- Writing through `dereference_mut` always leaves the written value
readable at the current pointer: the growth loop makes the pointer
addressable, and `set` stores the value there. -/
theorem dereference_write_cell (s : State) (v : Nat) :
    dereference (write_cell s v) = v := by
  have hlt := grow_until_lt s.data s.pointer
  have hlen : s.pointer < ((grow_until s.data s.pointer).set s.pointer v).length := by
    rw [List.length_set]; exact hlt
  unfold dereference write_cell
  simp only
  rw [if_neg (by omega)]
  rw [List.getD_eq_getElem?_getD, List.getElem?_set_self hlt]
  rfl

theorem write_cell_pointer (s : State) (v : Nat) :
    (write_cell s v).pointer = s.pointer := rfl

/-- When the instruction at the instruction pointer is already
materialized, the fetch loop exits immediately without pulling. -/
theorem fetch_of_lt {s : State}
    (h : s.instruction_pointer < s.instructions.length) : fetch s = (none, s) := by
  unfold fetch fetch_fuel
  rw [if_pos h]

/-- `read_file` never touches the tape, the pointers, the I/O sinks or the
logs: only `readSrc` and `instructions` change. -/
theorem read_file_frame (s : State) :
    (read_file s).2.data = s.data ∧ (read_file s).2.pointer = s.pointer ∧
      (read_file s).2.output = s.output ∧
      (read_file s).2.sinkResults = s.sinkResults ∧
      (read_file s).2.inputSrc = s.inputSrc ∧
      (read_file s).2.instruction_pointer = s.instruction_pointer ∧
      (read_file s).2.stdoutLog = s.stdoutLog ∧
      (read_file s).2.stderrLog = s.stderrLog := by
  unfold read_file
  rcases read_file_aux s.readSrc with _ | ⟨c, rest⟩ <;> simp

/-- The fetch loop never touches the tape, the pointers, the I/O sinks or
the logs. -/
theorem fetch_fuel_frame (n : Nat) (s : State) :
    (fetch_fuel n s).2.data = s.data ∧ (fetch_fuel n s).2.pointer = s.pointer ∧
      (fetch_fuel n s).2.output = s.output ∧
      (fetch_fuel n s).2.sinkResults = s.sinkResults ∧
      (fetch_fuel n s).2.inputSrc = s.inputSrc ∧
      (fetch_fuel n s).2.instruction_pointer = s.instruction_pointer ∧
      (fetch_fuel n s).2.stdoutLog = s.stdoutLog ∧
      (fetch_fuel n s).2.stderrLog = s.stderrLog := by
  induction n generalizing s with
  | zero => rw [fetch_fuel]; exact ⟨rfl, rfl, rfl, rfl, rfl, rfl, rfl, rfl⟩
  | succ n ih =>
    rw [fetch_fuel]
    by_cases hc : s.instruction_pointer < s.instructions.length
    · rw [if_pos hc]; exact ⟨rfl, rfl, rfl, rfl, rfl, rfl, rfl, rfl⟩
    · rw [if_neg hc]
      rcases hrf : read_file s with ⟨e | e, s'⟩
      · have h1 := read_file_frame s
        rw [hrf] at h1
        have h2 := ih s'
        simp only at h1 h2 ⊢
        exact ⟨h2.1.trans h1.1, (h2.2.1).trans h1.2.1, (h2.2.2.1).trans h1.2.2.1,
               (h2.2.2.2.1).trans h1.2.2.2.1, (h2.2.2.2.2.1).trans h1.2.2.2.2.1,
               (h2.2.2.2.2.2.1).trans h1.2.2.2.2.2.1,
               (h2.2.2.2.2.2.2.1).trans h1.2.2.2.2.2.2.1,
               (h2.2.2.2.2.2.2.2).trans h1.2.2.2.2.2.2.2⟩
      · have h1 := read_file_frame s
        rw [hrf] at h1
        simp only
        exact h1

/-- The materialization loop of `jump_if_zero` never touches the tape, the
pointers, the I/O sinks or the logs. -/
theorem pull_until_close_fuel_frame (n : Nat) (s : State) :
    (pull_until_close_fuel n s).2.data = s.data ∧
      (pull_until_close_fuel n s).2.pointer = s.pointer ∧
      (pull_until_close_fuel n s).2.output = s.output ∧
      (pull_until_close_fuel n s).2.sinkResults = s.sinkResults ∧
      (pull_until_close_fuel n s).2.inputSrc = s.inputSrc ∧
      (pull_until_close_fuel n s).2.instruction_pointer = s.instruction_pointer ∧
      (pull_until_close_fuel n s).2.stdoutLog = s.stdoutLog ∧
      (pull_until_close_fuel n s).2.stderrLog = s.stderrLog := by
  induction n generalizing s with
  | zero => rw [pull_until_close_fuel]; exact ⟨rfl, rfl, rfl, rfl, rfl, rfl, rfl, rfl⟩
  | succ n ih =>
    rw [pull_until_close_fuel]
    by_cases hc : s.instructions.getLast? = some ']'
    · rw [if_pos hc]; exact ⟨rfl, rfl, rfl, rfl, rfl, rfl, rfl, rfl⟩
    · rw [if_neg hc]
      rcases hrf : read_file s with ⟨e | e, s'⟩
      · have h1 := read_file_frame s
        rw [hrf] at h1
        have h2 := ih s'
        simp only at h1 h2 ⊢
        exact ⟨h2.1.trans h1.1, (h2.2.1).trans h1.2.1, (h2.2.2.1).trans h1.2.2.1,
               (h2.2.2.2.1).trans h1.2.2.2.1, (h2.2.2.2.2.1).trans h1.2.2.2.2.1,
               (h2.2.2.2.2.2.1).trans h1.2.2.2.2.2.1,
               (h2.2.2.2.2.2.2.1).trans h1.2.2.2.2.2.2.1,
               (h2.2.2.2.2.2.2.2).trans h1.2.2.2.2.2.2.2⟩
      · have h1 := read_file_frame s
        rw [hrf] at h1
        simp only
        exact h1

/-- If the skipping loop exhausts the source, the source held no usable
character at all. -/
theorem read_file_aux_none {l : List Char} (h : read_file_aux l = none) :
    l.filter is_usable = [] := by
  induction l with
  | nil => rfl
  | cons a l ih =>
    rw [read_file_aux] at h
    by_cases ha : is_usable a
    · rw [if_pos ha] at h
      cases h
    · rw [if_neg ha] at h
      rw [List.filter_cons, if_neg (by simp [ha])]
      exact ih h

/-- The skipping loop returns precisely the first usable character: the
usable subsequence of the source is that character followed by the usable
subsequence of the remainder. -/
theorem read_file_aux_some {l : List Char} {c : Char} {rest : List Char}
    (h : read_file_aux l = some (c, rest)) :
    l.filter is_usable = c :: rest.filter is_usable := by
  induction l with
  | nil => cases h
  | cons a l ih =>
    rw [read_file_aux] at h
    by_cases ha : is_usable a
    · rw [if_pos ha] at h
      cases h
      rw [List.filter_cons, if_pos (by simpa using ha)]
    · rw [if_neg ha] at h
      rw [List.filter_cons, if_neg (by simp [ha])]
      exact ih h

/-- Materializing the whole remaining source appends exactly the usable
subsequence of the source, in order, to the already-materialized
instructions. -/
theorem pull_all_fuel_instructions (n : Nat) (s : State)
    (hn : s.readSrc.length < n) :
    (pull_all_fuel n s).instructions =
      s.instructions ++ s.readSrc.filter is_usable := by
  induction n generalizing s with
  | zero => omega
  | succ n ih =>
    rw [pull_all_fuel]
    unfold read_file
    rcases haux : read_file_aux s.readSrc with _ | ⟨c, rest⟩
    · simp [read_file_aux_none haux]
    · have hfilter := read_file_aux_some haux
      have hlen := read_file_aux_shrinks haux
      rw [ih _ (by simpa using by omega)]
      simp [hfilter]

theorem pull_all_instructions (s : State) :
    (pull_all s).instructions = s.instructions ++ s.readSrc.filter is_usable :=
  pull_all_fuel_instructions _ s (Nat.lt_succ_self _)

/-! ## Dispatch and step lemmas -/

theorem dispatch_gt (s : State) : dispatch s '>' = (none, increment s) := by
  unfold dispatch; rw [if_pos rfl]

theorem dispatch_lt (s : State) : dispatch s '<' = (none, decrement s) := by
  unfold dispatch; rw [if_neg (by decide), if_pos rfl]

theorem dispatch_plus (s : State) :
    dispatch s '+' = (none, write_cell s ((dereference s + 1) % U32_MOD)) := by
  unfold dispatch; rw [if_neg (by decide), if_neg (by decide), if_pos rfl]

theorem dispatch_minus (s : State) :
    dispatch s '-' = (none, write_cell s ((dereference s + (U32_MOD - 1)) % U32_MOD)) := by
  unfold dispatch
  rw [if_neg (by decide), if_neg (by decide), if_neg (by decide), if_pos rfl]

theorem dispatch_dot (s : State) : dispatch s '.' = (none, writeOp s) := by
  unfold dispatch
  rw [if_neg (by decide), if_neg (by decide), if_neg (by decide), if_neg (by decide),
      if_pos rfl]

theorem dispatch_comma (s : State) : dispatch s ',' = readOp s := by
  unfold dispatch
  rw [if_neg (by decide), if_neg (by decide), if_neg (by decide), if_neg (by decide),
      if_neg (by decide), if_pos rfl]

theorem dispatch_open (s : State) : dispatch s '[' = jump_if_zero s := by
  unfold dispatch
  rw [if_neg (by decide), if_neg (by decide), if_neg (by decide), if_neg (by decide),
      if_neg (by decide), if_neg (by decide), if_pos rfl]

theorem dispatch_close (s : State) : dispatch s ']' = (none, jump_if_nonzero s) := by
  unfold dispatch
  rw [if_neg (by decide), if_neg (by decide), if_neg (by decide), if_neg (by decide),
      if_neg (by decide), if_neg (by decide), if_neg (by decide), if_pos rfl]

/-- A step whose fetch failed returns the fetch error before dispatching. -/
theorem repl_fetch_err {s s₁ : State} {e : IOErr} (hf : fetch s = (some e, s₁)) :
    repl s = (some e, s₁) := by
  unfold repl
  rw [hf]

/-- A step whose fetch succeeded and whose dispatch succeeded advances the
instruction pointer of the dispatched state by one. -/
theorem repl_ok_of_fetch {s s₁ t : State} (hf : fetch s = (none, s₁))
    (hd : dispatch (logLine s₁) (s₁.instructions.getD s₁.instruction_pointer ' ')
        = (none, t)) :
    repl s = (none, { t with instruction_pointer := t.instruction_pointer + 1 }) := by
  unfold repl
  rw [hf]
  show (match dispatch (logLine s₁)
          ((logLine s₁).instructions.getD (logLine s₁).instruction_pointer ' ') with
        | (some e, s') => (some e, s')
        | (none, s₃) => (none, { s₃ with instruction_pointer := s₃.instruction_pointer + 1 })) =
      (none, { t with instruction_pointer := t.instruction_pointer + 1 })
  rw [show (logLine s₁).instructions = s₁.instructions from rfl,
      show (logLine s₁).instruction_pointer = s₁.instruction_pointer from rfl, hd]

/-- A step whose fetch succeeded and whose dispatch failed returns that
error without advancing the instruction pointer. -/
theorem repl_err_of_fetch {s s₁ t : State} {e : IOErr} (hf : fetch s = (none, s₁))
    (hd : dispatch (logLine s₁) (s₁.instructions.getD s₁.instruction_pointer ' ')
        = (some e, t)) :
    repl s = (some e, t) := by
  unfold repl
  rw [hf]
  show (match dispatch (logLine s₁)
          ((logLine s₁).instructions.getD (logLine s₁).instruction_pointer ' ') with
        | (some e, s') => (some e, s')
        | (none, s₃) => (none, { s₃ with instruction_pointer := s₃.instruction_pointer + 1 })) =
      (some e, t)
  rw [show (logLine s₁).instructions = s₁.instructions from rfl,
      show (logLine s₁).instruction_pointer = s₁.instruction_pointer from rfl, hd]

/-- Specialization of `repl_ok_of_fetch` when the instruction is already
materialized (the fetch loop is the identity). -/
theorem repl_of_lt_ok {s t : State}
    (h : s.instruction_pointer < s.instructions.length)
    (hd : dispatch (logLine s) (s.instructions.getD s.instruction_pointer ' ')
        = (none, t)) :
    repl s = (none, { t with instruction_pointer := t.instruction_pointer + 1 }) :=
  repl_ok_of_fetch (fetch_of_lt h) hd

/-- Specialization of `repl_err_of_fetch` when the instruction is already
materialized. -/
theorem repl_of_lt_err {s t : State} {e : IOErr}
    (h : s.instruction_pointer < s.instructions.length)
    (hd : dispatch (logLine s) (s.instructions.getD s.instruction_pointer ' ')
        = (some e, t)) :
    repl s = (some e, t) :=
  repl_err_of_fetch (fetch_of_lt h) hd

/-- Unfolding of one successful driver step. -/
theorem run_succ_ok {s s' : State} (n : Nat) (h : repl s = (none, s')) :
    run (n + 1) s = run n s' := by
  rw [run, h]

/-- When the last materialized instruction is not `]` and no `]` will ever
be pulled (the usable subsequence of the remaining source has none), the
materialization loop of `jump_if_zero` pulls until exhaustion and returns
the exhaustion error. -/
theorem pull_until_close_fuel_exhausts (n : Nat) (s : State)
    (hn : s.readSrc.length < n)
    (hlast : ¬ s.instructions.getLast? = some ']')
    (hno : ']' ∉ s.readSrc.filter is_usable) :
    (pull_until_close_fuel n s).1 = some IOErr.exhausted := by
  induction n generalizing s with
  | zero => omega
  | succ n ih =>
    rw [pull_until_close_fuel, if_neg hlast]
    rcases haux : read_file_aux s.readSrc with _ | ⟨c, rest⟩
    · have hrf : read_file s = (some IOErr.exhausted, { s with readSrc := [] }) := by
        unfold read_file
        rw [haux]
      rw [hrf]
    · have hrf : read_file s =
          (none, { s with readSrc := rest, instructions := s.instructions ++ [c] }) := by
        unfold read_file
        rw [haux]
      rw [hrf]
      have hfilter := read_file_aux_some haux
      rw [hfilter] at hno
      have hc : ¬ (']' : Char) = c := fun h => hno (h ▸ List.mem_cons_self _ _)
      have hrest : ']' ∉ rest.filter is_usable := fun h => hno (List.mem_cons_of_mem _ h)
      have hlen := read_file_aux_shrinks haux
      refine ih _ (by simp only; omega) ?_ hrest
      show ¬ (s.instructions ++ [c]).getLast? = some ']'
      rw [List.getLast?_concat]
      intro h
      exact hc (Option.some.inj h).symm

/-! ## Claim theorems -/

/-- C5: for every raw character sequence fed as the instruction source (and
any input source), materializing by repeated pulls yields exactly the
subsequence of characters in the instruction alphabet, in original order;
all other characters are discarded. -/
theorem C5_stream_filtering (program input : List Char) :
    (pull_all (State.new program input)).instructions = program.filter is_usable := by
  rw [pull_all_instructions]
  rfl

/-- C6: executing the program `,` against an empty input source: the step
returns the exhaustion error (`ErrorKind::Other`, "no instructions in
buffer" — the spec's `ExhaustedError`) from the read, and the failing step
leaves the tape storage, the tape pointer, and hence the current cell,
unmodified. -/
theorem C6_read_exhausted_cell_unchanged :
    (repl (State.new [','] [])).1 = some IOErr.exhausted ∧
    (repl (State.new [','] [])).2.data = (State.new [','] []).data ∧
    (repl (State.new [','] [])).2.pointer = (State.new [','] []).pointer ∧
    dereference (repl (State.new [','] [])).2 = dereference (State.new [','] []) :=
  ⟨rfl, rfl, rfl, rfl⟩

/-- C7: cell arithmetic wraps and never errors: a `-` step always succeeds,
and from a zero cell it yields `2^32 - 1`; a `+` step always succeeds, and
from a `2^32 - 1` cell it yields 0. -/
theorem C7_cell_wraparound (s : State)
    (hip : s.instruction_pointer < s.instructions.length) :
    (s.instructions.getD s.instruction_pointer ' ' = '-' →
        (repl s).1 = none ∧
        (dereference s = 0 → dereference (repl s).2 = U32_MOD - 1)) ∧
    (s.instructions.getD s.instruction_pointer ' ' = '+' →
        (repl s).1 = none ∧
        (dereference s = U32_MOD - 1 → dereference (repl s).2 = 0)) := by
  constructor
  · intro hc
    have hrepl := repl_of_lt_ok hip (by rw [hc]; exact dispatch_minus (logLine s))
    rw [hrepl]
    refine ⟨rfl, ?_⟩
    intro h0
    show dereference (write_cell (logLine s)
        ((dereference (logLine s) + (U32_MOD - 1)) % U32_MOD)) = U32_MOD - 1
    rw [dereference_write_cell, show dereference (logLine s) = dereference s from rfl, h0]
    decide
  · intro hc
    have hrepl := repl_of_lt_ok hip (by rw [hc]; exact dispatch_plus (logLine s))
    rw [hrepl]
    refine ⟨rfl, ?_⟩
    intro h0
    show dereference (write_cell (logLine s)
        ((dereference (logLine s) + 1) % U32_MOD)) = 0
    rw [dereference_write_cell, show dereference (logLine s) = dereference s from rfl, h0]
    decide

theorem C7_witness :
    ((⟨[0], 0, [], [], [], [], ['-'], 0, [], []⟩ : State).instructions.getD 0 ' ' = '-' ∧
      dereference (repl ⟨[0], 0, [], [], [], [], ['-'], 0, [], []⟩).2 = U32_MOD - 1) ∧
    ((⟨[U32_MOD - 1], 0, [], [], [], [], ['+'], 0, [], []⟩ : State).instructions.getD 0 ' '
        = '+' ∧
      dereference (repl ⟨[U32_MOD - 1], 0, [], [], [], [], ['+'], 0, [], []⟩).2 = 0) := by
  constructor
  · exact ⟨by decide, ((C7_cell_wraparound ⟨[0], 0, [], [], [], [], ['-'], 0, [], []⟩
      (by decide)).1 (by decide)).2 (by decide)⟩
  · exact ⟨by decide, ((C7_cell_wraparound ⟨[U32_MOD - 1], 0, [], [], [], [], ['+'], 0, [], []⟩
      (by decide)).2 (by decide)).2 (by decide)⟩

/-- C8: a `.` step never returns an error; an invalid unicode scalar in the
cell produces only a diagnostic and no output; a sink failure produces
only a diagnostic; a valid scalar with a working sink is appended to the
output. -/
theorem C8_write_never_fatal (s : State)
    (hip : s.instruction_pointer < s.instructions.length)
    (hc : s.instructions.getD s.instruction_pointer ' ' = '.') :
    (repl s).1 = none ∧
    (from_u32 (dereference s) = none →
        (repl s).2.output = s.output ∧
        (repl s).2.stderrLog = s.stderrLog ++ [Diag.invalidCodepoint]) ∧
    (∀ c, from_u32 (dereference s) = some c →
        (s.sinkResults.headD true = true →
            (repl s).2.output = s.output ++ [c] ∧
            (repl s).2.stderrLog = s.stderrLog) ∧
        (s.sinkResults.headD true = false →
            (repl s).2.output = s.output ∧
            (repl s).2.stderrLog = s.stderrLog ++ [Diag.writeFailed])) := by
  have hrepl := repl_of_lt_ok hip (by rw [hc]; exact dispatch_dot (logLine s))
  rw [hrepl]
  obtain ⟨d, p, rs, o, sk, inp, ins, ip, so, se⟩ := s
  refine ⟨rfl, ?_, ?_⟩
  · intro hnone
    unfold writeOp
    rw [show dereference (logLine ⟨d, p, rs, o, sk, inp, ins, ip, so, se⟩) =
          dereference ⟨d, p, rs, o, sk, inp, ins, ip, so, se⟩ from rfl, hnone]
    exact ⟨rfl, rfl⟩
  · intro c hsome
    unfold writeOp
    rw [show dereference (logLine ⟨d, p, rs, o, sk, inp, ins, ip, so, se⟩) =
          dereference ⟨d, p, rs, o, sk, inp, ins, ip, so, se⟩ from rfl, hsome]
    rcases sk with _ | ⟨b, rest⟩
    · refine ⟨fun _ => ⟨rfl, rfl⟩, fun hfalse => ?_⟩
      simp at hfalse
    · rcases b with _ | _
      · refine ⟨fun htrue => ?_, fun _ => ⟨rfl, rfl⟩⟩
        simp at htrue
      · refine ⟨fun _ => ⟨rfl, rfl⟩, fun hfalse => ?_⟩
        simp at hfalse

theorem C8_witness :
    ((⟨[55296], 0, [], [], [], [], ['.'], 0, [], []⟩ : State).instructions.getD 0 ' ' = '.' ∧
      (repl ⟨[55296], 0, [], [], [], [], ['.'], 0, [], []⟩).1 = none ∧
      (repl ⟨[55296], 0, [], [], [], [], ['.'], 0, [], []⟩).2.output = [] ∧
      (repl ⟨[55296], 0, [], [], [], [], ['.'], 0, [], []⟩).2.stderrLog
        = [Diag.invalidCodepoint]) ∧
    ((repl ⟨[65], 0, [], [], [false], [], ['.'], 0, [], []⟩).2.output = [] ∧
      (repl ⟨[65], 0, [], [], [false], [], ['.'], 0, [], []⟩).2.stderrLog
        = [Diag.writeFailed]) ∧
    (repl ⟨[65], 0, [], [], [], [], ['.'], 0, [], []⟩).2.output = [65] := by
  refine ⟨?_, ?_, ?_⟩
  · have h := (C8_write_never_fatal ⟨[55296], 0, [], [], [], [], ['.'], 0, [], []⟩
      (by decide) (by decide)).2.1 (by decide)
    exact ⟨by decide, (C8_write_never_fatal _ (by decide) (by decide)).1,
           h.1.trans rfl, h.2.trans (by decide)⟩
  · have h := ((C8_write_never_fatal ⟨[65], 0, [], [], [false], [], ['.'], 0, [], []⟩
      (by decide) (by decide)).2.2 65 (by decide)).2 (by decide)
    exact ⟨h.1.trans rfl, h.2.trans (by decide)⟩
  · have h := ((C8_write_never_fatal ⟨[65], 0, [], [], [], [], ['.'], 0, [], []⟩
      (by decide) (by decide)).2.2 65 (by decide)).1 (by decide)
    exact h.1.trans (by decide)

/-- C9: the tape read returns the stored cell when the pointer is within
the storage length and 0 when it is at or beyond it; reading is a pure
function of the state (it takes no mutable reference, so the storage length
cannot change); and on a fresh tape — where no address was ever written —
every pointer value reads 0. -/
theorem C9_dereference_reads (s : State) :
    (s.pointer < s.data.length → dereference s = s.data.getD s.pointer 0) ∧
    (s.data.length ≤ s.pointer → dereference s = 0) ∧
    ∀ (program input : List Char) (p : Nat),
      dereference { State.new program input with pointer := p } = 0 := by
  refine ⟨?_, ?_, ?_⟩
  · intro h
    unfold dereference
    rw [if_neg (by omega)]
  · intro h
    unfold dereference
    rw [if_pos (by omega)]
  · intro program input p
    show (if p ≥ (List.replicate 65536 0).length then 0
          else (List.replicate 65536 0).getD p 0) = 0
    by_cases hp : p < 65536
    · rw [if_neg (by rw [List.length_replicate]; omega)]
      rw [List.getD_eq_getElem?_getD, List.getElem?_replicate, if_pos hp]
      rfl
    · rw [if_pos (by rw [List.length_replicate]; omega)]

/-- C3 counterexample: for the program `[` (the `[` materialized, the cell
zero, the source already exhausted), the `[` step itself returns the
exhaustion error — it does not return successfully as the claim states. -/
theorem C3_counterexample :
    (repl ⟨[0], 0, [], [], [], [], ['['], 0, [], []⟩).1 = some IOErr.exhausted := by
  decide

/-- C3 amended: when `[` is dispatched with the cell 0, no `]` in the
materialized suffix, and no `]` among the usable characters of the
remaining source, the step returns the exhaustion error itself (the error
of the pull loop), leaving the instruction pointer unchanged; the run ends
via this very step's error, not via a later fetch. -/
theorem C3_open_bracket_exhaustion_is_error (s : State)
    (hip : s.instruction_pointer < s.instructions.length)
    (hc : s.instructions.getD s.instruction_pointer ' ' = '[')
    (h0 : dereference s = 0)
    (hnosuffix :
      (s.instructions.drop (s.instruction_pointer + 1)).findIdx? (· == ']') = none)
    (hnosrc : ']' ∉ s.readSrc.filter is_usable) :
    (repl s).1 = some IOErr.exhausted ∧
    (repl s).2.instruction_pointer = s.instruction_pointer := by
  have hip' : s.instructions[s.instruction_pointer] = '[' := by
    have h1 := List.getD_eq_getElem?_getD s.instructions s.instruction_pointer ' '
    rw [List.getElem?_eq_getElem hip] at h1
    rw [hc] at h1
    exact (Option.getD_some).symm.trans h1.symm
  have hlast : ¬ s.instructions.getLast? = some ']' := by
    have hklt : s.instructions.length - 1 < s.instructions.length := by omega
    rw [List.getLast?_eq_getElem?, List.getElem?_eq_getElem hklt]
    intro h
    have helem : s.instructions[s.instructions.length - 1] = ']' := Option.some.inj h
    by_cases hk : s.instructions.length - 1 = s.instruction_pointer
    · have heq : s.instructions[s.instructions.length - 1] =
          s.instructions[s.instruction_pointer] := by
        congr 1
      rw [heq, hip'] at helem
      cases helem
    · have hj : s.instructions.length - 1 - (s.instruction_pointer + 1) <
          (s.instructions.drop (s.instruction_pointer + 1)).length := by
        rw [List.length_drop]
        omega
      have h1 := List.getElem_mem hj
      have h2 : (s.instructions.drop (s.instruction_pointer + 1))[
          s.instructions.length - 1 - (s.instruction_pointer + 1)] =
          s.instructions[s.instructions.length - 1] := by
        rw [List.getElem_drop]
        congr 1
        omega
      rw [h2, helem] at h1
      have h3 := List.findIdx?_eq_none_iff.mp hnosuffix _ h1
      simp at h3
  rcases hpc : pull_until_close (logLine s) with ⟨r, t⟩
  have hr : r = some IOErr.exhausted := by
    have h1 : (pull_until_close (logLine s)).1 = some IOErr.exhausted := by
      show (pull_until_close_fuel ((logLine s).readSrc.length + 1) (logLine s)).1 =
        some IOErr.exhausted
      refine pull_until_close_fuel_exhausts _ _ (Nat.lt_succ_self _) ?_ ?_
      · exact hlast
      · exact hnosrc
    rw [hpc] at h1
    exact h1
  have hjz : jump_if_zero (logLine s) = (some IOErr.exhausted, t) := by
    unfold jump_if_zero
    rw [if_neg (show ¬ dereference (logLine s) ≠ 0 from fun hne => hne h0)]
    rw [show (logLine s).instructions = s.instructions from rfl,
        show (logLine s).instruction_pointer = s.instruction_pointer from rfl,
        hnosuffix]
    rw [hpc, hr]
  have hd : dispatch (logLine s) (s.instructions.getD s.instruction_pointer ' ')
      = (some IOErr.exhausted, t) := by
    rw [hc, dispatch_open]
    exact hjz
  have hrepl := repl_of_lt_err hip hd
  rw [hrepl]
  refine ⟨rfl, ?_⟩
  have hframe := (pull_until_close_fuel_frame ((logLine s).readSrc.length + 1)
    (logLine s)).2.2.2.2.2.1
  rw [show pull_until_close_fuel ((logLine s).readSrc.length + 1) (logLine s) =
      pull_until_close (logLine s) from rfl, hpc] at hframe
  exact hframe

theorem C3_witness :
    ((⟨[0], 0, ['x'], [], [], [], ['['], 0, [], []⟩ : State).instructions.getD 0 ' ' = '[' ∧
      dereference ⟨[0], 0, ['x'], [], [], [], ['['], 0, [], []⟩ = 0) ∧
    (repl ⟨[0], 0, ['x'], [], [], [], ['['], 0, [], []⟩).1 = some IOErr.exhausted ∧
    (repl ⟨[0], 0, ['x'], [], [], [], ['['], 0, [], []⟩).2.instruction_pointer = 0 := by
  refine ⟨⟨by decide, by decide⟩, ?_⟩
  exact C3_open_bracket_exhaustion_is_error ⟨[0], 0, ['x'], [], [], [], ['['], 0, [], []⟩
    (by decide) (by decide) (by decide) (by decide) (by decide)


/-- C1: the code diverges from the claim.  For the program `[+]` with the
loop cell initially 0 (any tape `data` whose cell 0 reads 0 — in the fresh
engine, 65536 zero cells), the first step dispatches `[`: the materialized
suffix holds no `]`, so the `None` arm of `jump_if_zero` pulls `+` and `]`
from the source but never updates the instruction pointer.  The step then
advances the pointer to 1 — the `+` — and the second step executes that
`+`, leaving the cell at 1.  The claim that execution "skips directly to
the instruction after `]` without ever executing `+`" is therefore false
of the code. -/
theorem C1_plus_is_executed (data : List Nat)
    (h0 : dereference ⟨data, 0, ['[', '+', ']'], [], [], [], [], 0, [], []⟩ = 0) :
    (run 1 ⟨data, 0, ['[', '+', ']'], [], [], [], [], 0, [], []⟩).instructions
        = ['[', '+', ']'] ∧
    (run 1 ⟨data, 0, ['[', '+', ']'], [], [], [], [], 0, [], []⟩).instruction_pointer = 1 ∧
    dereference (run 2 ⟨data, 0, ['[', '+', ']'], [], [], [], [], 0, [], []⟩) = 1 := by
  have hf : fetch ⟨data, 0, ['[', '+', ']'], [], [], [], [], 0, [], []⟩ =
      (none, ⟨data, 0, ['+', ']'], [], [], [], ['['], 0, [], []⟩) := rfl
  have hjz : jump_if_zero (logLine ⟨data, 0, ['+', ']'], [], [], [], ['['], 0, [], []⟩) =
      (none, ⟨data, 0, [], [], [], [], ['[', '+', ']'], 0,
        [⟨0, 0, ['['], data⟩], []⟩) := by
    unfold jump_if_zero
    rw [if_neg (fun hne => hne h0)]
    rfl
  have hr1 : repl ⟨data, 0, ['[', '+', ']'], [], [], [], [], 0, [], []⟩ =
      (none, ⟨data, 0, [], [], [], [], ['[', '+', ']'], 1, [⟨0, 0, ['['], data⟩], []⟩) := by
    have hd : dispatch (logLine ⟨data, 0, ['+', ']'], [], [], [], ['['], 0, [], []⟩) '[' =
        (none, ⟨data, 0, [], [], [], [], ['[', '+', ']'], 0, [⟨0, 0, ['['], data⟩], []⟩) := by
      rw [dispatch_open]
      exact hjz
    exact repl_ok_of_fetch hf hd
  have hr2 : repl ⟨data, 0, [], [], [], [], ['[', '+', ']'], 1, [⟨0, 0, ['['], data⟩], []⟩ =
      (none, { write_cell
          (logLine ⟨data, 0, [], [], [], [], ['[', '+', ']'], 1, [⟨0, 0, ['['], data⟩], []⟩)
          ((dereference
            (logLine ⟨data, 0, [], [], [], [], ['[', '+', ']'], 1, [⟨0, 0, ['['], data⟩], []⟩)
              + 1) % U32_MOD) with
        instruction_pointer := 2 }) := by
    have hd : dispatch
        (logLine ⟨data, 0, [], [], [], [], ['[', '+', ']'], 1, [⟨0, 0, ['['], data⟩], []⟩) '+' =
        (none, write_cell
          (logLine ⟨data, 0, [], [], [], [], ['[', '+', ']'], 1, [⟨0, 0, ['['], data⟩], []⟩)
          ((dereference
            (logLine ⟨data, 0, [], [], [], [], ['[', '+', ']'], 1, [⟨0, 0, ['['], data⟩], []⟩)
              + 1) % U32_MOD)) := dispatch_plus _
    exact repl_ok_of_fetch (fetch_of_lt (by show (1:Nat) < 3; omega)) hd
  refine ⟨?_, ?_, ?_⟩
  · rw [show run 1 ⟨data, 0, ['[', '+', ']'], [], [], [], [], 0, [], []⟩ =
        ⟨data, 0, [], [], [], [], ['[', '+', ']'], 1, [⟨0, 0, ['['], data⟩], []⟩ from
      run_succ_ok 0 hr1]
  · rw [show run 1 ⟨data, 0, ['[', '+', ']'], [], [], [], [], 0, [], []⟩ =
        ⟨data, 0, [], [], [], [], ['[', '+', ']'], 1, [⟨0, 0, ['['], data⟩], []⟩ from
      run_succ_ok 0 hr1]
  · rw [show run 2 ⟨data, 0, ['[', '+', ']'], [], [], [], [], 0, [], []⟩ =
        run 1 ⟨data, 0, [], [], [], [], ['[', '+', ']'], 1, [⟨0, 0, ['['], data⟩], []⟩ from
      run_succ_ok 1 hr1]
    rw [run_succ_ok 0 hr2]
    show dereference (write_cell
        (logLine ⟨data, 0, [], [], [], [], ['[', '+', ']'], 1, [⟨0, 0, ['['], data⟩], []⟩)
        ((dereference
          (logLine ⟨data, 0, [], [], [], [], ['[', '+', ']'], 1, [⟨0, 0, ['['], data⟩], []⟩)
            + 1) % U32_MOD)) = 1
    rw [dereference_write_cell,
        show dereference
          (logLine ⟨data, 0, [], [], [], [], ['[', '+', ']'], 1, [⟨0, 0, ['['], data⟩], []⟩) =
          dereference ⟨data, 0, ['[', '+', ']'], [], [], [], [], 0, [], []⟩ from rfl, h0]
    decide

theorem C1_witness :
    dereference ⟨[0], 0, ['[', '+', ']'], [], [], [], [], 0, [], []⟩ = 0 ∧
    ((run 1 ⟨[0], 0, ['[', '+', ']'], [], [], [], [], 0, [], []⟩).instructions
        = ['[', '+', ']'] ∧
      (run 1 ⟨[0], 0, ['[', '+', ']'], [], [], [], [], 0, [], []⟩).instruction_pointer = 1 ∧
      dereference (run 2 ⟨[0], 0, ['[', '+', ']'], [], [], [], [], 0, [], []⟩) = 1) :=
  ⟨by decide, C1_plus_is_executed [0] (by decide)⟩

/-- C2: the code diverges from the claim.  In the state with materialized
instructions `[`, `+`, `]`, instruction pointer 2 (at the `]`) and current
cell 1, the nearest preceding `[` is at position 0 (the backward scan finds
it at reversed offset 1).  The claim says the step sets the instruction
pointer to 0 and advances to 1, dispatching the `+` next; the code instead
computes `2 - 1 = 1` (one past the `[`) and advances to 2, so the next
instruction dispatched is the `]` itself again — the step leaves the
pointer at 2, and further steps bounce on the `]` forever (`run 3` is still
at 2 with the cell unchanged). -/
theorem C2_backward_jump_off_by_one :
    ((⟨[1], 0, [], [], [], [], ['[', '+', ']'], 2, [], []⟩ : State).instructions.getD 2 ' '
        = ']' ∧
      dereference ⟨[1], 0, [], [], [], [], ['[', '+', ']'], 2, [], []⟩ = 1 ∧
      (⟨[1], 0, [], [], [], [], ['[', '+', ']'], 2, [], []⟩ : State).instructions.getD 0 ' '
        = '[' ∧
      (((⟨[1], 0, [], [], [], [], ['[', '+', ']'], 2, [], []⟩ : State).instructions.take
          2).reverse.findIdx? (· == '[')) = some 1) ∧
    (repl ⟨[1], 0, [], [], [], [], ['[', '+', ']'], 2, [], []⟩).1 = none ∧
    (repl ⟨[1], 0, [], [], [], [], ['[', '+', ']'], 2, [], []⟩).2.instruction_pointer = 2 ∧
    ¬ (repl ⟨[1], 0, [], [], [], [], ['[', '+', ']'], 2, [], []⟩).2.instruction_pointer
        = 0 + 1 ∧
    (run 3 ⟨[1], 0, [], [], [], [], ['[', '+', ']'], 2, [], []⟩).instruction_pointer = 2 ∧
    dereference (run 3 ⟨[1], 0, [], [], [], [], ['[', '+', ']'], 2, [], []⟩) = 1 := by
  decide

theorem C9_witness :
    dereference ⟨[7], 0, [], [], [], [], [], 0, [], []⟩ = 7 ∧
    dereference ⟨[7], 3, [], [], [], [], [], 0, [], []⟩ = 0 := by
  constructor
  · exact ((C9_dereference_reads ⟨[7], 0, [], [], [], [], [], 0, [], []⟩).1
      (by decide)).trans (by decide)
  · exact (C9_dereference_reads ⟨[7], 3, [], [], [], [], [], 0, [], []⟩).2.1 (by decide)

theorem increment_stdoutLog (s : State) : (increment s).stdoutLog = s.stdoutLog := by
  cases s
  rfl

theorem decrement_stdoutLog (s : State) : (decrement s).stdoutLog = s.stdoutLog := by
  cases s
  rfl

theorem write_cell_stdoutLog (s : State) (v : Nat) :
    (write_cell s v).stdoutLog = s.stdoutLog := by
  cases s
  rfl

theorem writeOp_stdoutLog (s : State) : (writeOp s).stdoutLog = s.stdoutLog := by
  unfold writeOp
  repeat' split
  all_goals rfl

theorem readOp_stdoutLog (s : State) : (readOp s).2.stdoutLog = s.stdoutLog := by
  unfold readOp
  split
  all_goals rfl

theorem jump_if_zero_stdoutLog (s : State) :
    (jump_if_zero s).2.stdoutLog = s.stdoutLog := by
  unfold jump_if_zero
  split
  · rfl
  · split
    · rfl
    · exact (pull_until_close_fuel_frame _ _).2.2.2.2.2.2.1

theorem jump_if_nonzero_stdoutLog (s : State) :
    (jump_if_nonzero s).stdoutLog = s.stdoutLog := by
  unfold jump_if_nonzero
  repeat' split
  all_goals rfl

set_option maxRecDepth 4000 in
/-- No dispatched operation ever appends to standard output: all debug
output comes from the `println!` before dispatch, and `.` output goes to
the separate writer sink. -/
theorem dispatch_stdoutLog (s : State) (c : Char) :
    (dispatch s c).2.stdoutLog = s.stdoutLog := by
  unfold dispatch
  repeat' split
  · exact increment_stdoutLog s
  · exact decrement_stdoutLog s
  · exact write_cell_stdoutLog s _
  · exact write_cell_stdoutLog s _
  · exact writeOp_stdoutLog s
  · exact readOp_stdoutLog s
  · exact jump_if_zero_stdoutLog s
  · exact jump_if_nonzero_stdoutLog s
  · rfl

/-- C10: every step whose fetch succeeds — in particular every successful
step, for every instruction symbol — appends exactly one debug line to
standard output before dispatching, containing the tape pointer, the
instruction pointer, the entire materialized instruction list and the
entire tape contents of the fetched state.  (In `main`, this `println!`
shares standard output with the `.` writer sink, so stdout receives data
beyond what `.` produces.) -/
theorem C10_debug_line_every_step (s : State) (hok : (repl s).1 = none) :
    (repl s).2.stdoutLog = s.stdoutLog ++
      [⟨(fetch s).2.pointer, (fetch s).2.instruction_pointer,
        (fetch s).2.instructions, (fetch s).2.data⟩] := by
  rcases hf : fetch s with ⟨e | e, s₁⟩
  case mk.none =>
    rcases hd : dispatch (logLine s₁) (s₁.instructions.getD s₁.instruction_pointer ' ')
        with ⟨e' | e', t⟩
    case mk.none =>
      have hrepl := repl_ok_of_fetch hf hd
      rw [hrepl]
      show t.stdoutLog = s.stdoutLog ++
        [⟨s₁.pointer, s₁.instruction_pointer, s₁.instructions, s₁.data⟩]
      have hds := dispatch_stdoutLog (logLine s₁)
        (s₁.instructions.getD s₁.instruction_pointer ' ')
      rw [hd] at hds
      rw [hds]
      show s₁.stdoutLog ++
          [⟨s₁.pointer, s₁.instruction_pointer, s₁.instructions, s₁.data⟩] =
        s.stdoutLog ++ [⟨s₁.pointer, s₁.instruction_pointer, s₁.instructions, s₁.data⟩]
      have hframe := fetch_fuel_frame (s.readSrc.length + 1) s
      rw [show fetch_fuel (s.readSrc.length + 1) s = fetch s from rfl, hf] at hframe
      rw [hframe.2.2.2.2.2.2.1]
    case mk.some =>
      have := repl_err_of_fetch hf hd
      rw [this] at hok
      cases hok
  case mk.some =>
    have := repl_fetch_err hf
    rw [this] at hok
    cases hok

theorem C10_witness :
    (repl ⟨[9], 4, [], [], [], [], ['>'], 0, [], []⟩).1 = none ∧
    (repl ⟨[9], 4, [], [], [], [], ['>'], 0, [], []⟩).2.stdoutLog
      = [⟨4, 0, ['>'], [9]⟩] := by
  refine ⟨by decide, ?_⟩
  have h := C10_debug_line_every_step ⟨[9], 4, [], [], [], [], ['>'], 0, [], []⟩ (by decide)
  exact h.trans (by decide)

end Bfi
